import Mathlib

/-!
Verification of the iris k-means dashboard (`src/7_iris_app.py`).

The program is a single-page Dash application: a fixed 150-row iris dataset,
two attribute dropdowns, a numeric cluster-count input, and one callback
(`run_clustering`, lines 131-176) that clamps the cluster count, deep-copies
the dataset, runs sklearn k-means on the two selected columns, appends the
stringified labels as a "Cluster" column, and returns a scatter figure (with
numerically ordered cluster categories and a "Centroids" overlay trace)
together with the full record set of the augmented table.

This file gives a shallow embedding of that callback and proves the spec's
testable properties over it.  Floating-point columns are modelled over ℚ.
The two external ingredients that are not part of the repository source
(the bundled dataset returned by `px.data.iris()` and the clustering routine
`sklearn.cluster.KMeans`) are modelled from the spec, as documented on their
definitions.
-/

namespace IrisApp

/-- A 2-D point in the selected feature space, over ℚ (models the float pairs
handed to `KMeans.fit` at line 152). -/
abbrev Point := ℚ × ℚ

/-- One sample record of the renamed iris dataset: the four measurement
columns, the species label and the species identifier (columns renamed at
lines 24-34 of the source). -/
structure IrisRow where
  sepalLength : ℚ
  sepalWidth : ℚ
  petalLength : ℚ
  petalWidth : ℚ
  species : String
  speciesId : ℕ
deriving DecidableEq

/-- The four numeric attributes offered by the two dropdowns
(`iris_cols`, lines 37-42). -/
inductive Attr where
  | sepalLength
  | sepalWidth
  | petalLength
  | petalWidth
deriving DecidableEq

/-- The human-readable column name of an attribute (`iris_cols`). -/
def Attr.colName : Attr → String
  | .sepalLength => "Sepal length (cm)"
  | .sepalWidth => "Sepal width (cm)"
  | .petalLength => "Petal length (cm)"
  | .petalWidth => "Petal width (cm)"

/-- Column projection: `r.get a` is the value of column `a` in row `r`
(models `df[col]` for the four numeric columns). -/
def IrisRow.get (r : IrisRow) : Attr → ℚ
  | .sepalLength => r.sepalLength
  | .sepalWidth => r.sepalWidth
  | .petalLength => r.petalLength
  | .petalWidth => r.petalWidth

/-- A pandas data frame as used by this program: the fixed iris rows plus the
optional derived "Cluster" column (the only column this program ever adds,
line 153). -/
structure DataFrame where
  rows : List IrisRow
  cluster : Option (List String)
deriving DecidableEq

/-- Models `DataFrame.copy(deep=True)` (line 148): the result is a value
independent of the original, so later mutation of the copy cannot reach the
original.  In the pure embedding a deep copy is the identity on values. -/
def DataFrame.copy (df : DataFrame) : DataFrame := df

/-- Species label of sample `i` of the bundled dataset: three species blocks
of 50 rows each. -/
def speciesName (i : ℕ) : String :=
  if i < 50 then "setosa" else if i < 100 then "versicolor" else "virginica"

/-- Modelled from the spec: sample `i` of the bundled iris dataset.  The
dataset itself is supplied by `px.data.iris()` (line 23), an external data
file that is not part of this repository, so the spec's description fixes
only its shape: 150 rows, four continuous measurement columns, a species
label and a species identifier.  This model fixes one deterministic instance
of that shape (one-decimal centimetre values; 3 species blocks of 50 rows
with identifiers 1..3). -/
def mkIrisRow (i : ℕ) : IrisRow :=
  { sepalLength := (43 + (i : ℚ)) / 10
    sepalWidth := (20 + ((i % 24 : ℕ) : ℚ)) / 10
    petalLength := (10 + ((i % 60 : ℕ) : ℚ)) / 10
    petalWidth := (1 + ((i % 25 : ℕ) : ℚ)) / 10
    species := speciesName i
    speciesId := i / 50 + 1 }

/-- Modelled from the spec: the 150 sample records of the bundled iris
dataset (`px.data.iris()`, line 23). -/
def irisRows : List IrisRow := (List.range 150).map mkIrisRow

/-- The module-global dataset `iris_data` (lines 23-34): the 150 renamed iris
rows, with no "Cluster" column before any run. -/
def iris_data : DataFrame := { rows := irisRows, cluster := none }

theorem irisRows_length : irisRows.length = 150 := by
  simp [irisRows]

/-- The two-column feature matrix `df[[x_var, y_var]].values` (line 152):
one `(x, y)` pair per row of the frame. -/
def selectedPoints (rows : List IrisRow) (x_var y_var : Attr) : List Point :=
  rows.map fun r => (r.get x_var, r.get y_var)

theorem selectedPoints_length (rows : List IrisRow) (x_var y_var : Attr) :
    (selectedPoints rows x_var y_var).length = rows.length := by
  simp [selectedPoints]

theorem selectedPoints_iris_length (x_var y_var : Attr) :
    (selectedPoints iris_data.rows x_var y_var).length = 150 := by
  simp [selectedPoints_length, iris_data, irisRows_length]

/-! ### Decimal stringification

`run_clustering` stores the cluster labels as strings
(`k_means.labels_.astype(str)`, line 153) and builds the legend categories as
`[str(x) for x in list(range(num_clusters))]` (line 156).  Python's `str` on a
non-negative integer produces its decimal numeral; `natToString` models that.
-/

/-- The decimal digit character of `d` (for `d < 10`; larger inputs are
clamped to the last digit and never arise). -/
def digitChar (d : ℕ) : Char :=
  match d with
  | 0 => '0'
  | 1 => '1'
  | 2 => '2'
  | 3 => '3'
  | 4 => '4'
  | 5 => '5'
  | 6 => '6'
  | 7 => '7'
  | 8 => '8'
  | _ => '9'

/-- Least-significant-first decimal digits of `n`, with explicit fuel so that
the definition is structurally recursive (fuel `n` is always enough). -/
def toDigitsRev (fuel n : ℕ) : List ℕ :=
  match fuel with
  | 0 => []
  | fuel + 1 => if n = 0 then [] else n % 10 :: toDigitsRev fuel (n / 10)

/-- Least-significant-first decimal digits of `n` (empty for `0`). -/
def natDigits (n : ℕ) : List ℕ := toDigitsRev n n

/-- Models Python `str` on a non-negative integer: its decimal numeral. -/
def natToString (n : ℕ) : String :=
  if n = 0 then "0" else String.mk (((natDigits n).map digitChar).reverse)

/-- Recombining a least-significant-first digit list. -/
def digitsVal (l : List ℕ) : ℕ := l.foldr (fun d acc => d + 10 * acc) 0

theorem digitsVal_toDigitsRev (fuel : ℕ) :
    ∀ n : ℕ, n ≤ fuel → digitsVal (toDigitsRev fuel n) = n := by
  induction fuel with
  | zero =>
    intro n hn
    interval_cases n
    simp [toDigitsRev, digitsVal]
  | succ fuel ih =>
    intro n hn
    by_cases h0 : n = 0
    · simp [toDigitsRev, h0, digitsVal]
    · have hdiv : n / 10 ≤ fuel := by
        have : n / 10 < n := Nat.div_lt_self (Nat.pos_of_ne_zero h0) (by norm_num)
        omega
      simp only [toDigitsRev, h0, if_false, digitsVal, List.foldr_cons]
      have := ih (n / 10) hdiv
      simp only [digitsVal] at this
      rw [this]
      omega

theorem digitsVal_natDigits (n : ℕ) : digitsVal (natDigits n) = n :=
  digitsVal_toDigitsRev n n le_rfl

theorem natDigits_injective : Function.Injective natDigits :=
  Function.LeftInverse.injective digitsVal_natDigits

theorem toDigitsRev_lt (fuel : ℕ) :
    ∀ n d : ℕ, d ∈ toDigitsRev fuel n → d < 10 := by
  induction fuel with
  | zero => intro n d hd; simp [toDigitsRev] at hd
  | succ fuel ih =>
    intro n d hd
    by_cases h0 : n = 0
    · simp [toDigitsRev, h0] at hd
    · simp only [toDigitsRev, h0, if_false, List.mem_cons] at hd
      rcases hd with h | h
      · subst h; exact Nat.mod_lt _ (by norm_num)
      · exact ih _ _ h

theorem natDigits_lt (n : ℕ) : ∀ d ∈ natDigits n, d < 10 :=
  toDigitsRev_lt n n

theorem digitChar_inj {a b : ℕ} (ha : a < 10) (hb : b < 10)
    (h : digitChar a = digitChar b) : a = b := by
  interval_cases a <;> interval_cases b <;> simp_all [digitChar]

theorem map_digitChar_inj : ∀ (l₁ l₂ : List ℕ), (∀ d ∈ l₁, d < 10) →
    (∀ d ∈ l₂, d < 10) → l₁.map digitChar = l₂.map digitChar → l₁ = l₂ := by
  intro l₁
  induction l₁ with
  | nil =>
    intro l₂ _ _ h
    cases l₂ with
    | nil => rfl
    | cons b t => simp at h
  | cons a t ih =>
    intro l₂ h₁ h₂ h
    cases l₂ with
    | nil => simp at h
    | cons b t₂ =>
      simp only [List.map_cons, List.cons.injEq] at h
      have hab : a = b :=
        digitChar_inj (h₁ a (by simp)) (h₂ b (by simp)) h.1
      have ht : t = t₂ :=
        ih t₂ (fun d hd => h₁ d (by simp [hd])) (fun d hd => h₂ d (by simp [hd])) h.2
      rw [hab, ht]

theorem natToString_injective : Function.Injective natToString := by
  intro n m h
  unfold natToString at h
  by_cases hn : n = 0 <;> by_cases hm : m = 0
  · rw [hn, hm]
  · exfalso
    simp only [hn, if_true, hm, if_false] at h
    have hdig : natDigits m = [0] := by
      have hdata : ((natDigits m).map digitChar).reverse = ['0'] := by
        have := congrArg String.data h
        simpa using this.symm
      have : (natDigits m).map digitChar = ['0'] := by
        have := congrArg List.reverse hdata
        simpa using this
      apply map_digitChar_inj _ _ (natDigits_lt m) (by intro d hd; simp at hd; omega)
      simpa [digitChar] using this
    have := digitsVal_natDigits m
    rw [hdig] at this
    simp [digitsVal] at this
    exact hm this.symm
  · exfalso
    simp only [hn, if_false, hm, if_true] at h
    have hdig : natDigits n = [0] := by
      have hdata : ((natDigits n).map digitChar).reverse = ['0'] := by
        have := congrArg String.data h
        simpa using this
      have : (natDigits n).map digitChar = ['0'] := by
        have := congrArg List.reverse hdata
        simpa using this
      apply map_digitChar_inj _ _ (natDigits_lt n) (by intro d hd; simp at hd; omega)
      simpa [digitChar] using this
    have := digitsVal_natDigits n
    rw [hdig] at this
    simp [digitsVal] at this
    exact hn this.symm
  · simp only [hn, if_false, hm, if_false] at h
    have hdata := congrArg String.data h
    simp only [String.data] at hdata
    have hrev : ((natDigits n).map digitChar).reverse =
        ((natDigits m).map digitChar).reverse := hdata
    have hmap : (natDigits n).map digitChar = (natDigits m).map digitChar := by
      have := congrArg List.reverse hrev
      simpa using this
    exact natDigits_injective
      (map_digitChar_inj _ _ (natDigits_lt n) (natDigits_lt m) hmap)

/-! ### The clustering routine

`run_clustering` delegates the clustering to `sklearn.cluster.KMeans`
(lines 151-152), an external library that is not part of this repository.
The spec treats it as a collaborator with a contract: it partitions the
`n` sample points into `n_clusters` groups, yielding one integer label in
`0 .. n_clusters - 1` per sample (`labels_`) and one centroid per cluster
(`cluster_centers_`, the mean position of the cluster), raising a
`ValueError` when `n_samples < n_clusters`; its initialisation is random,
and the spec leaves the exact partition unspecified.  Modelled from the
spec: the definitions below fix one deterministic instance of that contract
(a Lloyd iteration from distinct-sample initial centers), which realises
every property the spec states about the routine; no claim below depends on
the randomised details the spec leaves open. -/

/-- Squared euclidean distance between two feature points. -/
def sqDist (p q : Point) : ℚ := (p.1 - q.1) ^ 2 + (p.2 - q.2) ^ 2

/-- Best (index, squared distance) of `p` among the centers, earliest index
winning ties; `none` only for an empty center list. -/
def nearestAux (p : Point) : List Point → Option (ℕ × ℚ)
  | [] => none
  | c :: cs =>
    match nearestAux p cs with
    | none => some (0, sqDist p c)
    | some (j, d) =>
      if sqDist p c ≤ d then some (0, sqDist p c) else some (j + 1, d)

/-- Index of the center nearest to `p` (the cluster label assigned to `p`). -/
def nearestIdx (cs : List Point) (p : Point) : ℕ :=
  match nearestAux p cs with
  | none => 0
  | some (j, _) => j

/-- Initial centers: the first `k` pairwise-distinct sample points, padded by
repeating the first sample when fewer than `k` distinct points exist (as the
routine then returns duplicated centers). -/
def initCenters (pts : List Point) (k : ℕ) : List Point :=
  pts.dedup.take k ++ List.replicate (k - pts.dedup.length) (pts.headD (0, 0))

/-- The sample points assigned to cluster `j` under the given labels. -/
def clusterMembers (pts : List Point) (labels : List ℕ) (j : ℕ) : List Point :=
  ((pts.zip labels).filter fun pl => pl.2 == j).map Prod.fst

/-- Coordinate-wise arithmetic mean of a list of points. -/
def meanPoint (l : List Point) : Point :=
  ((l.map Prod.fst).sum / l.length, (l.map Prod.snd).sum / l.length)

/-- The cluster labels the modelled routine assigns (`k_means.labels_`). -/
def kMeansLabels (pts : List Point) (k : ℕ) : List ℕ :=
  pts.map (nearestIdx (initCenters pts k))

/-- The centroids the modelled routine reports (`k_means.cluster_centers_`). -/
def kMeansCenters (pts : List Point) (k : ℕ) : List Point :=
  (List.range k).map fun j =>
    let members := clusterMembers pts (kMeansLabels pts k) j
    if members.isEmpty then (initCenters pts k).getD j (0, 0)
    else meanPoint members

theorem sqDist_nonneg (p q : Point) : 0 ≤ sqDist p q :=
  add_nonneg (sq_nonneg _) (sq_nonneg _)

theorem sqDist_eq_zero {p q : Point} : sqDist p q = 0 ↔ p = q := by
  constructor
  · intro h
    simp only [sqDist] at h
    have h1 : (p.1 - q.1) ^ 2 = 0 := by
      nlinarith [sq_nonneg (p.1 - q.1), sq_nonneg (p.2 - q.2)]
    have h2 : (p.2 - q.2) ^ 2 = 0 := by
      nlinarith [sq_nonneg (p.1 - q.1), sq_nonneg (p.2 - q.2)]
    have e1 : p.1 = q.1 := by
      have := pow_eq_zero_iff (n := 2) (by norm_num) |>.mp h1
      linarith [this]
    have e2 : p.2 = q.2 := by
      have := pow_eq_zero_iff (n := 2) (by norm_num) |>.mp h2
      linarith [this]
    exact Prod.ext e1 e2
  · rintro rfl
    simp [sqDist]

theorem nearestAux_eq_none {p : Point} :
    ∀ {cs : List Point}, nearestAux p cs = none → cs = [] := by
  intro cs
  cases cs with
  | nil => intro _; rfl
  | cons c t =>
    intro h
    exfalso
    simp only [nearestAux] at h
    cases hrec : nearestAux p t with
    | none => rw [hrec] at h; simp at h
    | some jd =>
      obtain ⟨j, d⟩ := jd
      rw [hrec] at h
      dsimp only at h
      split_ifs at h

theorem nearestAux_spec :
    ∀ (cs : List Point) (p : Point) (j : ℕ) (d : ℚ),
      nearestAux p cs = some (j, d) →
      ∃ h : j < cs.length,
        d = sqDist p (cs.get ⟨j, h⟩) ∧ ∀ c ∈ cs, d ≤ sqDist p c := by
  intro cs
  induction cs with
  | nil => intro p j d h; simp [nearestAux] at h
  | cons c t ih =>
    intro p j d h
    simp only [nearestAux] at h
    cases hrec : nearestAux p t with
    | none =>
      rw [hrec] at h
      dsimp only at h
      simp only [Option.some.injEq, Prod.mk.injEq] at h
      obtain ⟨hj, hd⟩ := h
      have ht : t = [] := nearestAux_eq_none hrec
      subst ht
      subst hj
      refine ⟨by simp only [List.length_cons, List.length_nil]; omega, ?_, ?_⟩
      · exact hd.symm
      · intro c' hc'
        simp only [List.mem_singleton] at hc'
        subst hc'
        exact le_of_eq hd.symm
    | some jd =>
      obtain ⟨j', d'⟩ := jd
      rw [hrec] at h
      dsimp only at h
      obtain ⟨hj', hd', hmin'⟩ := ih p j' d' hrec
      split_ifs at h with hle
      · simp only [Option.some.injEq, Prod.mk.injEq] at h
        obtain ⟨hj, hd⟩ := h
        subst hj
        refine ⟨by simp only [List.length_cons]; omega, by simpa using hd.symm, ?_⟩
        intro c' hc'
        rcases List.mem_cons.mp hc' with rfl | hmem
        · exact le_of_eq hd.symm
        · calc d = sqDist p c := hd.symm
            _ ≤ d' := hle
            _ ≤ sqDist p c' := hmin' c' hmem
      · simp only [Option.some.injEq, Prod.mk.injEq] at h
        obtain ⟨hj, hd⟩ := h
        subst hd
        subst hj
        refine ⟨by simp only [List.length_cons]; omega, ?_, ?_⟩
        · simpa using hd'
        · intro c' hc'
          rcases List.mem_cons.mp hc' with rfl | hmem
          · exact le_of_lt (lt_of_not_le hle)
          · exact hmin' c' hmem

theorem nearestIdx_lt {cs : List Point} (hcs : cs ≠ []) (p : Point) :
    nearestIdx cs p < cs.length := by
  unfold nearestIdx
  cases hna : nearestAux p cs with
  | none => exact absurd (nearestAux_eq_none hna) hcs
  | some jd =>
    obtain ⟨j, d⟩ := jd
    obtain ⟨hj, -, -⟩ := nearestAux_spec cs p j d hna
    exact hj

theorem nearestIdx_get {cs : List Point} (hnd : cs.Nodup) (i : Fin cs.length) :
    nearestIdx cs (cs.get i) = i := by
  unfold nearestIdx
  cases hna : nearestAux (cs.get i) cs with
  | none =>
    have := nearestAux_eq_none hna
    subst this
    exact absurd i.isLt (by simp)
  | some jd =>
    obtain ⟨j, d⟩ := jd
    obtain ⟨hj, hd, hmin⟩ := nearestAux_spec cs (cs.get i) j d hna
    have hle0 : d ≤ 0 := by
      have := hmin (cs.get i) (cs.get_mem i.1 i.2)
      simpa [sqDist] using this
    have hge0 : 0 ≤ d := hd ▸ sqDist_nonneg _ _
    have hd0 : d = 0 := le_antisymm hle0 hge0
    have heq : cs.get ⟨j, hj⟩ = cs.get i :=
      (sqDist_eq_zero.mp (by rw [← hd]; exact hd0)).symm
    have : (⟨j, hj⟩ : Fin cs.length) = i := (List.Nodup.get_inj_iff hnd).mp heq
    simpa using congrArg Fin.val this

theorem length_initCenters (pts : List Point) (k : ℕ) :
    (initCenters pts k).length = k := by
  simp only [initCenters, List.length_append, List.length_take,
    List.length_replicate]
  omega

theorem initCenters_of_le {pts : List Point} {k : ℕ}
    (h : k ≤ pts.dedup.length) : initCenters pts k = pts.dedup.take k := by
  have h0 : k - pts.dedup.length = 0 := by omega
  simp [initCenters, h0]

theorem initCenters_nodup {pts : List Point} {k : ℕ}
    (h : k ≤ pts.dedup.length) : (initCenters pts k).Nodup := by
  rw [initCenters_of_le h]
  exact (List.nodup_dedup pts).sublist (List.take_sublist _ _)

theorem initCenters_subset {pts : List Point} {k : ℕ}
    (h : k ≤ pts.dedup.length) : ∀ c ∈ initCenters pts k, c ∈ pts := by
  intro c hc
  rw [initCenters_of_le h] at hc
  exact pts.dedup_subset (pts.dedup.take_subset k hc)

theorem kMeansLabels_length (pts : List Point) (k : ℕ) :
    (kMeansLabels pts k).length = pts.length := by
  simp [kMeansLabels]

theorem kMeansCenters_length (pts : List Point) (k : ℕ) :
    (kMeansCenters pts k).length = k := by
  simp [kMeansCenters]

theorem kMeansLabels_lt {pts : List Point} {k : ℕ} (hk : 0 < k) :
    ∀ l ∈ kMeansLabels pts k, l < k := by
  intro l hl
  obtain ⟨p, -, rfl⟩ := List.mem_map.mp hl
  have hne : initCenters pts k ≠ [] := by
    intro h
    have := length_initCenters pts k
    rw [h] at this
    simp at this
    omega
  have := nearestIdx_lt hne p
  rwa [length_initCenters] at this

theorem kMeansLabels_surj {pts : List Point} {k : ℕ}
    (h : k ≤ pts.dedup.length) : ∀ j < k, j ∈ kMeansLabels pts k := by
  intro j hj
  have hlen : (initCenters pts k).length = k := length_initCenters pts k
  have hj' : j < (initCenters pts k).length := by omega
  set c := (initCenters pts k).get ⟨j, hj'⟩ with hc
  have hcpts : c ∈ pts :=
    initCenters_subset h c (List.get_mem _ _ hj')
  have hidx : nearestIdx (initCenters pts k) c = j :=
    nearestIdx_get (initCenters_nodup h) ⟨j, hj'⟩
  exact List.mem_map.mpr ⟨c, hcpts, hidx⟩

theorem kMeansLabels_toFinset {pts : List Point} {k : ℕ} (hk : 0 < k)
    (h : k ≤ pts.dedup.length) :
    (kMeansLabels pts k).toFinset = Finset.range k := by
  ext j
  simp only [List.mem_toFinset, Finset.mem_range]
  exact ⟨fun hj => kMeansLabels_lt hk j hj, fun hj => kMeansLabels_surj h j hj⟩

theorem initCenters_one {pts : List Point} (h : pts ≠ []) :
    ∃ c, initCenters pts 1 = [c] := by
  have hd : pts.dedup ≠ [] := by
    intro hnil
    exact h ((List.dedup_eq_nil _).mp hnil)
  cases hdd : pts.dedup with
  | nil => exact absurd hdd hd
  | cons c t =>
    refine ⟨c, ?_⟩
    simp [initCenters, hdd]

theorem kMeansLabels_one {pts : List Point} (h : pts ≠ []) :
    kMeansLabels pts 1 = List.replicate pts.length 0 := by
  obtain ⟨c, hc⟩ := initCenters_one h
  unfold kMeansLabels
  rw [hc]
  apply List.eq_replicate_iff.mpr
  constructor
  · simp
  · intro b hb
    obtain ⟨p, -, rfl⟩ := List.mem_map.mp hb
    rfl

theorem zip_replicate_self {α β : Type} (l : List α) (b : β) :
    l.zip (List.replicate l.length b) = l.map fun a => (a, b) := by
  induction l with
  | nil => rfl
  | cons a t ih => simp [List.replicate_succ, ih]

theorem clusterMembers_all (pts : List Point) :
    clusterMembers pts (List.replicate pts.length 0) 0 = pts := by
  unfold clusterMembers
  rw [zip_replicate_self]
  rw [List.filter_map]
  have : (fun (pl : Point × ℕ) => pl.2 == 0) ∘ (fun a => (a, 0)) =
      fun _ => true := by
    funext a
    simp
  rw [this, List.filter_true, List.map_map]
  have hid : (Prod.fst ∘ fun a : Point => (a, (0 : ℕ))) = id := by
    funext a
    rfl
  rw [hid, List.map_id]

theorem kMeansCenters_one {pts : List Point} (h : pts ≠ []) :
    kMeansCenters pts 1 = [meanPoint pts] := by
  unfold kMeansCenters
  rw [kMeansLabels_one h]
  have : List.range 1 = [0] := rfl
  rw [this]
  simp only [List.map_cons, List.map_nil]
  rw [clusterMembers_all]
  have hne : pts.isEmpty = false := by
    cases pts with
    | nil => exact absurd rfl h
    | cons a t => rfl
  simp [hne]

/-! ### The reactive handler `run_clustering` (lines 131-176) -/

/-- One record of `df.to_dict("records")` (line 176): every column of the
base dataset plus the derived "Cluster" column. -/
structure Record where
  sepalLength : ℚ
  sepalWidth : ℚ
  petalLength : ℚ
  petalWidth : ℚ
  species : String
  speciesId : ℕ
  cluster : String
deriving DecidableEq

/-- The record of row `r` with cluster value `c`: all original columns carried
over, plus the "Cluster" column (the column assignment of line 153 as seen by
`to_dict` at line 176). -/
def withCluster (r : IrisRow) (c : String) : Record :=
  { sepalLength := r.sepalLength
    sepalWidth := r.sepalWidth
    petalLength := r.petalLength
    petalWidth := r.petalWidth
    species := r.species
    speciesId := r.speciesId
    cluster := c }

/-- Models `df.to_dict("records")` (line 176) on a frame whose "Cluster"
column has been set: one record per row, pairing the row with its cluster
string. -/
def DataFrame.toRecords (df : DataFrame) : List Record :=
  List.zipWith withCluster df.rows (df.cluster.getD [])

/-- The legend categories `[str(x) for x in list(range(num_clusters))]`
(line 156): the decimal numerals of `0 .. k-1`, in numeric order. -/
def clusterIdsSorted (k : ℕ) : List String :=
  (List.range k).map fun x => natToString x

/-- The scatter figure the handler publishes: `px.scatter` of the two
selected columns colored by the "Cluster" column with the numeric category
order (lines 157-163), plus the added centroid trace (lines 166-174). -/
structure Figure where
  xCol : Attr
  yCol : Attr
  colorCol : String
  categoryOrder : List String
  scatterData : List (Point × String)
  centroidName : String
  centroidMarkerColor : String
  centroidMarkerSymbol : String
  centroidPoints : List Point
deriving DecidableEq

/-- The pair of outputs the callback publishes: the figure for `my-graph`
and the record list for `my-table` (line 176). -/
structure HandlerOutput where
  figure : Figure
  records : List Record
deriving DecidableEq

/-- Models Python `max(a, b)` at line 145 when `a` is the cluster-count
widget value, which Dash delivers as `None` when the field is empty: `max`
compares `b > a`, and comparing an `int` with `None` raises a `TypeError`. -/
def pyMax (a : Option ℤ) (b : ℤ) : Except String ℤ :=
  match a with
  | none =>
      Except.error
        "TypeError: not supported between instances of int and NoneType"
  | some v => Except.ok (max v b)

/-- The cluster count actually handed to the clustering routine for a numeric
requested count `v`: the clamp `max(num_clusters, 1)` of line 145, as the
(necessarily positive) natural number received by `KMeans(n_clusters=...)`
at line 151. -/
def effectiveClusterCount (v : ℤ) : ℕ := (max v 1).toNat

/-- The body of `run_clustering` after the clamp (lines 147-176), for an
already-clamped cluster count `k`: deep-copy the dataset, cluster the two
selected columns, append the stringified labels as "Cluster", and build the
figure (scatter with numeric category order plus "Centroids" trace) and the
table records. -/
def runClusteringBody (state : DataFrame) (x_var y_var : Attr) (k : ℕ) :
    HandlerOutput :=
  let df := state.copy
  let pts := selectedPoints df.rows x_var y_var
  let labels := kMeansLabels pts k
  let clusterCol := labels.map fun l => natToString l
  let df2 : DataFrame := { df with cluster := some clusterCol }
  { figure :=
      { xCol := x_var
        yCol := y_var
        colorCol := "Cluster"
        categoryOrder := clusterIdsSorted k
        scatterData := pts.zip clusterCol
        centroidName := "Centroids"
        centroidMarkerColor := "black"
        centroidMarkerSymbol := "star-triangle-up"
        centroidPoints := kMeansCenters pts k }
    records := df2.toRecords }

/-- The clustering phase of the body, including the routine's fit-time
validation: `KMeans.fit` raises a `ValueError` when there are fewer samples
than requested clusters (behavior of the external routine, delegated by the
spec); otherwise the body runs to completion. -/
def run_clustering_core (state : DataFrame) (x_var y_var : Attr) (k : ℕ) :
    Except String HandlerOutput :=
  if (selectedPoints state.copy.rows x_var y_var).length < k then
    Except.error "ValueError: n_samples should be at least n_clusters"
  else Except.ok (runClusteringBody state x_var y_var k)

/-- The reactive callback `run_clustering` (lines 131-176).  `state` is the
module-global `iris_data` at invocation time; the second component of the
result is that global after the call (the handler only ever mutates its deep
copy, so it hands the global back untouched).  `num_clusters` is the raw
widget value (`None` when the field is empty) and `n_clicks` the unused
trigger payload. -/
def run_clustering (state : DataFrame) (x_var y_var : Attr)
    (num_clusters : Option ℤ) (n_clicks : Option ℕ) :
    Except String HandlerOutput × DataFrame :=
  match pyMax num_clusters 1 with
  | Except.error e => (Except.error e, state)
  | Except.ok k => (run_clustering_core state x_var y_var k.toNat, state)

theorem one_le_effectiveClusterCount (v : ℤ) :
    1 ≤ effectiveClusterCount v := by
  unfold effectiveClusterCount
  omega

theorem run_clustering_some (state : DataFrame) (x_var y_var : Attr)
    (v : ℤ) (n_clicks : Option ℕ) :
    run_clustering state x_var y_var (some v) n_clicks =
      (run_clustering_core state x_var y_var (effectiveClusterCount v),
        state) := rfl

theorem run_clustering_core_ok (x_var y_var : Attr) {k : ℕ} (hk : k ≤ 150) :
    run_clustering_core iris_data x_var y_var k =
      Except.ok (runClusteringBody iris_data x_var y_var k) := by
  unfold run_clustering_core
  rw [if_neg]
  intro hlt
  rw [DataFrame.copy, selectedPoints_iris_length] at hlt
  omega

theorem runClusteringBody_records_def (state : DataFrame) (x_var y_var : Attr)
    (k : ℕ) :
    (runClusteringBody state x_var y_var k).records =
      List.zipWith withCluster state.rows
        ((kMeansLabels (selectedPoints state.rows x_var y_var) k).map
          fun l => natToString l) := rfl

theorem runClusteringBody_centroids (state : DataFrame) (x_var y_var : Attr)
    (k : ℕ) :
    (runClusteringBody state x_var y_var k).figure.centroidPoints =
      kMeansCenters (selectedPoints state.rows x_var y_var) k := rfl

theorem runClusteringBody_categoryOrder (state : DataFrame)
    (x_var y_var : Attr) (k : ℕ) :
    (runClusteringBody state x_var y_var k).figure.categoryOrder =
      clusterIdsSorted k := rfl

theorem map_cluster_zipWith :
    ∀ (rows : List IrisRow) (cc : List String), cc.length ≤ rows.length →
      (List.zipWith withCluster rows cc).map Record.cluster = cc := by
  intro rows
  induction rows with
  | nil =>
    intro cc h
    cases cc with
    | nil => rfl
    | cons c ct => simp at h
  | cons r t ih =>
    intro cc h
    cases cc with
    | nil => rfl
    | cons c ct =>
      simp only [List.zipWith_cons_cons, List.map_cons]
      rw [ih ct (by simpa using h)]
      rfl

theorem runClusteringBody_records_length (state : DataFrame)
    (x_var y_var : Attr) (k : ℕ) :
    (runClusteringBody state x_var y_var k).records.length =
      state.rows.length := by
  rw [runClusteringBody_records_def]
  simp [kMeansLabels_length, selectedPoints_length]

theorem ok_of_run_some {x_var y_var : Attr} {v : ℤ} {n : Option ℕ}
    {out : HandlerOutput}
    (h : (run_clustering iris_data x_var y_var (some v) n).1 =
      Except.ok out) :
    out = runClusteringBody iris_data x_var y_var (effectiveClusterCount v) := by
  rw [run_clustering_some] at h
  dsimp only at h
  unfold run_clustering_core at h
  rcases Decidable.em ((selectedPoints iris_data.copy.rows x_var y_var).length <
      effectiveClusterCount v) with hc | hc
  · rw [if_pos hc] at h
    exact absurd h (by simp)
  · rw [if_neg hc] at h
    exact (Except.ok.inj h).symm

theorem one_le_dedup_selectedPoints (x_var y_var : Attr) :
    1 ≤ (selectedPoints iris_data.rows x_var y_var).dedup.length := by
  have hne : selectedPoints iris_data.rows x_var y_var ≠ [] := by
    intro hnil
    have := selectedPoints_iris_length x_var y_var
    rw [hnil] at this
    simp at this
  have : (selectedPoints iris_data.rows x_var y_var).dedup ≠ [] := by
    intro hnil
    exact hne ((List.dedup_eq_nil _).mp hnil)
  exact List.length_pos.mpr this

/-- Arithmetic mean of one attribute column of a frame.  This definition
follows the spec's words for the single-cluster scenario ("centroid series
has exactly 1 point equal to the mean of the two selected columns") and is
compared against the centroid the program computes. -/
def columnMean (rows : List IrisRow) (a : Attr) : ℚ :=
  ((rows.map fun r => r.get a).sum) / rows.length

theorem meanPoint_selectedPoints (rows : List IrisRow) (x_var y_var : Attr) :
    meanPoint (selectedPoints rows x_var y_var) =
      (columnMean rows x_var, columnMean rows y_var) := by
  unfold meanPoint selectedPoints columnMean
  rw [List.map_map, List.map_map, List.length_map]
  rfl

/-! ### The claims -/

/-- C1: for every requested integer cluster count ≤ 0, the effective cluster
count the handler uses equals 1: the invocation is exactly the invocation of
the post-clamp body with cluster count 1 (and the global dataset is handed
back untouched). -/
theorem C1_nonpositive_count_runs_with_one (state : DataFrame)
    (x_var y_var : Attr) (v : ℤ) (n_clicks : Option ℕ) (hv : v ≤ 0) :
    run_clustering state x_var y_var (some v) n_clicks =
      (run_clustering_core state x_var y_var 1, state) := by
  rw [run_clustering_some]
  have h1 : effectiveClusterCount v = 1 := by
    unfold effectiveClusterCount
    omega
  rw [h1]

theorem C1_witness :
    (-3 : ℤ) ≤ 0 ∧
      run_clustering iris_data Attr.sepalLength Attr.sepalWidth
          (some (-3)) (some 1) =
        (run_clustering_core iris_data Attr.sepalLength Attr.sepalWidth 1,
          iris_data) :=
  ⟨by decide,
    C1_nonpositive_count_runs_with_one iris_data Attr.sepalLength
      Attr.sepalWidth (-3) (some 1) (by decide)⟩

/-- C2: whenever the handler returns (for any attribute pair and any cluster
count it accepts), the record set returned for the table has exactly as many
rows as the base dataset, namely 150. -/
theorem C2_table_has_150_rows (x_var y_var : Attr) (num_clusters : Option ℤ)
    (n_clicks : Option ℕ) (out : HandlerOutput)
    (h : (run_clustering iris_data x_var y_var num_clusters n_clicks).1 =
      Except.ok out) :
    out.records.length = 150 := by
  cases num_clusters with
  | none => simp [run_clustering, pyMax] at h
  | some v =>
    rw [ok_of_run_some h, runClusteringBody_records_length]
    simp [iris_data, irisRows_length]

set_option maxRecDepth 8000 in
theorem C2_witness :
    (run_clustering iris_data Attr.sepalLength Attr.sepalWidth (some 3)
        (some 1)).1 =
      Except.ok (runClusteringBody iris_data Attr.sepalLength
        Attr.sepalWidth 3) ∧
    (runClusteringBody iris_data Attr.sepalLength Attr.sepalWidth
      3).records.length = 150 :=
  ⟨rfl,
    C2_table_has_150_rows Attr.sepalLength Attr.sepalWidth (some 3) (some 1)
      (runClusteringBody iris_data Attr.sepalLength Attr.sepalWidth 3) rfl⟩

theorem toFinset_list_map {α β : Type} [DecidableEq α] [DecidableEq β]
    (f : α → β) (l : List α) :
    (l.map f).toFinset = l.toFinset.image f := by
  ext b
  simp [List.mem_toFinset, List.mem_map, Finset.mem_image]

/-- C3: whenever the handler returns for a requested count `v` and the
selected two-column feature space contains at least `effectiveClusterCount v`
distinct points, the set of distinct cluster labels appearing in the result
has exactly `effectiveClusterCount v` elements. -/
theorem C3_distinct_label_count (x_var y_var : Attr) (v : ℤ)
    (n_clicks : Option ℕ) (out : HandlerOutput)
    (h : (run_clustering iris_data x_var y_var (some v) n_clicks).1 =
      Except.ok out)
    (hdistinct : effectiveClusterCount v ≤
      (selectedPoints iris_data.rows x_var y_var).dedup.length) :
    (out.records.map Record.cluster).dedup.length =
      effectiveClusterCount v := by
  rw [ok_of_run_some h, runClusteringBody_records_def]
  rw [map_cluster_zipWith _ _
    (by simp [kMeansLabels_length, selectedPoints_length])]
  rw [← List.card_toFinset, toFinset_list_map]
  rw [kMeansLabels_toFinset (by
    have := one_le_effectiveClusterCount v
    omega) hdistinct]
  rw [Finset.card_image_of_injective _ natToString_injective,
    Finset.card_range]

set_option maxRecDepth 8000 in
theorem C3_witness :
    ((run_clustering iris_data Attr.sepalLength Attr.petalLength (some 1)
        (some 1)).1 =
      Except.ok (runClusteringBody iris_data Attr.sepalLength
        Attr.petalLength 1)) ∧
    effectiveClusterCount 1 ≤
      (selectedPoints iris_data.rows Attr.sepalLength
        Attr.petalLength).dedup.length ∧
    ((runClusteringBody iris_data Attr.sepalLength Attr.petalLength
      1).records.map Record.cluster).dedup.length =
      effectiveClusterCount 1 :=
  ⟨rfl, one_le_dedup_selectedPoints Attr.sepalLength Attr.petalLength,
    C3_distinct_label_count Attr.sepalLength Attr.petalLength 1 (some 1)
      (runClusteringBody iris_data Attr.sepalLength Attr.petalLength 1) rfl
      (one_le_dedup_selectedPoints Attr.sepalLength Attr.petalLength)⟩

/-- C4: whenever the handler returns, the number of centroid points in the
overlaid "Centroids" series equals the effective (clamped) cluster count. -/
theorem C4_centroid_count_eq_effective_count (x_var y_var : Attr) (v : ℤ)
    (n_clicks : Option ℕ) (out : HandlerOutput)
    (h : (run_clustering iris_data x_var y_var (some v) n_clicks).1 =
      Except.ok out) :
    out.figure.centroidPoints.length = effectiveClusterCount v := by
  rw [ok_of_run_some h, runClusteringBody_centroids, kMeansCenters_length]

set_option maxRecDepth 8000 in
theorem C4_witness :
    (run_clustering iris_data Attr.petalLength Attr.petalWidth (some 4)
        (some 2)).1 =
      Except.ok (runClusteringBody iris_data Attr.petalLength
        Attr.petalWidth 4) ∧
    (runClusteringBody iris_data Attr.petalLength Attr.petalWidth
      4).figure.centroidPoints.length = effectiveClusterCount 4 :=
  ⟨rfl,
    C4_centroid_count_eq_effective_count Attr.petalLength Attr.petalWidth 4
      (some 2)
      (runClusteringBody iris_data Attr.petalLength Attr.petalWidth 4) rfl⟩

/-- C5: whenever the handler returns with effective cluster count N, the
cluster categories of the chart are the decimal numerals of 0..N-1 in
numeric order: the list has length N and its i-th entry is the numeral of i
(so for N = 12, position 9 holds "9" and position 10 holds "10"). -/
theorem C5_categories_in_numeric_order (x_var y_var : Attr) (v : ℤ)
    (n_clicks : Option ℕ) (out : HandlerOutput)
    (h : (run_clustering iris_data x_var y_var (some v) n_clicks).1 =
      Except.ok out) :
    out.figure.categoryOrder.length = effectiveClusterCount v ∧
      ∀ i : ℕ, i < effectiveClusterCount v →
        out.figure.categoryOrder.getD i "" = natToString i := by
  rw [ok_of_run_some h, runClusteringBody_categoryOrder]
  constructor
  · simp [clusterIdsSorted]
  · intro i hi
    have hlen : i < (clusterIdsSorted (effectiveClusterCount v)).length := by
      simpa [clusterIdsSorted] using hi
    rw [List.getD_eq_getElem _ _ hlen]
    simp [clusterIdsSorted]

set_option maxRecDepth 8000 in
theorem C5_witness :
    (run_clustering iris_data Attr.sepalLength Attr.sepalWidth (some 12)
        (some 1)).1 =
      Except.ok (runClusteringBody iris_data Attr.sepalLength
        Attr.sepalWidth 12) ∧
    (runClusteringBody iris_data Attr.sepalLength Attr.sepalWidth
      12).figure.categoryOrder.getD 9 "" = "9" ∧
    (runClusteringBody iris_data Attr.sepalLength Attr.sepalWidth
      12).figure.categoryOrder.getD 10 "" = "10" :=
  ⟨rfl,
    (C5_categories_in_numeric_order Attr.sepalLength Attr.sepalWidth 12
      (some 1) _ rfl).2 9 (by decide),
    (C5_categories_in_numeric_order Attr.sepalLength Attr.sepalWidth 12
      (some 1) _ rfl).2 10 (by decide)⟩

/-- C6: whenever the handler returns, the record set for the table is the
base dataset row for row — every original column carried over — plus exactly
one added "Cluster" column whose values are stringified integers. -/
theorem C6_records_are_rows_plus_cluster_column (x_var y_var : Attr) (v : ℤ)
    (n_clicks : Option ℕ) (out : HandlerOutput)
    (h : (run_clustering iris_data x_var y_var (some v) n_clicks).1 =
      Except.ok out) :
    ∃ ls : List ℕ, ls.length = 150 ∧
      out.records =
        List.zipWith withCluster iris_data.rows
          (ls.map fun l => natToString l) := by
  rw [ok_of_run_some h, runClusteringBody_records_def]
  refine ⟨kMeansLabels (selectedPoints iris_data.rows x_var y_var)
    (effectiveClusterCount v), ?_, rfl⟩
  rw [kMeansLabels_length, selectedPoints_iris_length]

set_option maxRecDepth 8000 in
theorem C6_witness :
    (run_clustering iris_data Attr.sepalWidth Attr.petalWidth (some 2)
        (some 1)).1 =
      Except.ok (runClusteringBody iris_data Attr.sepalWidth
        Attr.petalWidth 2) ∧
    ∃ ls : List ℕ, ls.length = 150 ∧
      (runClusteringBody iris_data Attr.sepalWidth Attr.petalWidth
        2).records =
        List.zipWith withCluster iris_data.rows
          (ls.map fun l => natToString l) :=
  ⟨rfl,
    C6_records_are_rows_plus_cluster_column Attr.sepalWidth Attr.petalWidth
      2 (some 1)
      (runClusteringBody iris_data Attr.sepalWidth Attr.petalWidth 2) rfl⟩

/-- C7: every invocation of the handler leaves the canonical base dataset
unchanged — it works on a full deep copy, so after any run (with any inputs,
the absent cluster count included) the process-wide dataset equals its value
at startup. -/
theorem C7_base_dataset_unchanged (x_var y_var : Attr)
    (num_clusters : Option ℤ) (n_clicks : Option ℕ) :
    (run_clustering iris_data x_var y_var num_clusters n_clicks).2 =
      iris_data := by
  cases num_clusters <;> rfl

/-- C9: selecting the same column for both axes is not rejected: whenever
the (clamped) cluster count is feasible, the handler returns normally, with
the clustering run on the duplicated single column, and the table still
carries all 150 rows. -/
theorem C9_same_column_not_rejected (a : Attr) (v : ℤ) (n_clicks : Option ℕ)
    (hv : effectiveClusterCount v ≤ 150) :
    (run_clustering iris_data a a (some v) n_clicks).1 =
      Except.ok (runClusteringBody iris_data a a
        (effectiveClusterCount v)) ∧
    (runClusteringBody iris_data a a
      (effectiveClusterCount v)).records.length = 150 := by
  constructor
  · rw [run_clustering_some]
    dsimp only
    exact run_clustering_core_ok a a hv
  · rw [runClusteringBody_records_length]
    simp [iris_data, irisRows_length]

theorem C9_witness :
    effectiveClusterCount 3 ≤ 150 ∧
    ((run_clustering iris_data Attr.petalLength Attr.petalLength (some 3)
        none).1 =
      Except.ok (runClusteringBody iris_data Attr.petalLength
        Attr.petalLength (effectiveClusterCount 3)) ∧
    (runClusteringBody iris_data Attr.petalLength Attr.petalLength
      (effectiveClusterCount 3)).records.length = 150) :=
  ⟨by decide,
    C9_same_column_not_rejected Attr.petalLength 3 none (by decide)⟩

/-- C8: for requested cluster count 0 (any attribute pair), clustering runs
with exactly 1 cluster, every one of the 150 rows receives the label "0",
and the centroid series contains exactly one point, whose coordinates are
the arithmetic means of the two selected columns. -/
theorem C8_zero_count_single_cluster (x_var y_var : Attr)
    (n_clicks : Option ℕ) :
    run_clustering iris_data x_var y_var (some 0) n_clicks =
      (run_clustering_core iris_data x_var y_var 1, iris_data) ∧
    (runClusteringBody iris_data x_var y_var 1).records.map Record.cluster =
      List.replicate 150 "0" ∧
    (runClusteringBody iris_data x_var y_var 1).figure.centroidPoints =
      [(columnMean iris_data.rows x_var, columnMean iris_data.rows y_var)] := by
  have hpts_len : (selectedPoints iris_data.rows x_var y_var).length = 150 :=
    selectedPoints_iris_length x_var y_var
  have hpts_ne : selectedPoints iris_data.rows x_var y_var ≠ [] := by
    intro h0
    rw [h0] at hpts_len
    simp at hpts_len
  refine ⟨rfl, ?_, ?_⟩
  · rw [runClusteringBody_records_def]
    rw [map_cluster_zipWith _ _
      (by simp [kMeansLabels_length, selectedPoints_length])]
    rw [kMeansLabels_one hpts_ne, hpts_len, List.map_replicate]
    rfl
  · rw [runClusteringBody_centroids, kMeansCenters_one hpts_ne,
      meanPoint_selectedPoints]

/-- C10: when the cluster-count input is absent (None), the handler fails at
the clamping step itself — `max(None, 1)` raises a TypeError — before any
copying or clustering occurs, for every dataset state and attribute pair;
the minimum-of-1 clamp covers only numeric values. -/
theorem C10_absent_count_raises_type_error (state : DataFrame)
    (x_var y_var : Attr) (n_clicks : Option ℕ) :
    run_clustering state x_var y_var none n_clicks =
      (Except.error
        "TypeError: not supported between instances of int and NoneType",
        state) := rfl

end IrisApp
